import Mathlib

/-!
Shallow embedding of the content-addressed caching and transpilation layer of
the `wurzel` repository (`src/lib/index.ts`).  External collaborators
(`node:crypto`, `lru-cache`, `commentscript`, `import-meta-resolve`,
`es6-debug-server`, `node:fs`, `node:url`) are modelled as parameters or, where
their observable contract is fixed, as concrete Lean functions.
-/

namespace Wurzel

/-- Models `createHash("md5").update(content).digest("hex")` from `node:crypto`
(a library external to the repository, used at `src/lib/index.ts:20-22`):
a deterministic, fixed-length hexadecimal digest of the content string.
The compression function abbreviates MD5; the development relies only on the
digest being a pure function of the content alone. -/
def md5 (content : String) : String :=
  let h := content.data.foldl (fun acc c => (acc * 131 + c.toNat) % (2 ^ 64)) 5381
  String.mk (Nat.toDigits 16 (2 ^ 64 + h))

/-- JavaScript `String.prototype.endsWith`: `s` ends with the suffix `p`. -/
def strEndsWith (s p : String) : Bool :=
  p.data.length ≤ s.data.length && s.data.drop (s.data.length - p.data.length) == p.data

/-- JavaScript `String.prototype.startsWith`: `s` starts with the prefix `p`. -/
def strStartsWith (s p : String) : Bool :=
  s.data.take p.data.length == p.data

/-- Model of an `LRUCache` instance from the `lru-cache` library as configured
at `src/lib/index.ts:89-101`: string keys, a byte budget `maxSize`, and a
`sizeCalculation` function receiving `(value, key)`.  `entries` is ordered
most-recently-used first. -/
structure LRUCache (V : Type) where
  entries : List (String × V)
  maxSize : Nat
  sizeCalc : V → String → Nat

/-- The accounted size of one cache entry: `sizeCalculation(value, key)`. -/
def entrySize (sizeCalc : V → String → Nat) (e : String × V) : Nat :=
  sizeCalc e.2 e.1

/-- Eviction loop of `lru-cache`: after an insertion the cache evicts
least-recently-used entries (the rear of the recency list) one at a time until
the total accounted size fits the budget.  Formulated front-to-back: keep the
longest prefix of the recency list whose cumulative size fits `budget`. -/
def takeWithin (sz : String × V → Nat) : Nat → List (String × V) → List (String × V)
  | _, [] => []
  | budget, e :: rest =>
    if sz e ≤ budget then e :: takeWithin sz (budget - sz e) rest else []

/-- `LRUCache#get`: on a hit the entry is promoted to most-recently-used
(moved to the front of the recency list); on a miss the cache is unchanged. -/
def LRUCache.get (c : LRUCache V) (k : String) : Option V × LRUCache V :=
  match c.entries.find? (fun e => e.1 == k) with
  | none => (none, c)
  | some e => (some e.2, { c with entries := e :: c.entries.filter (fun x => x.1 != k) })

/-- `LRUCache#set`: computes the entry's accounted size; an entry larger than
the whole budget is not stored (any previous entry under the key is removed);
otherwise the entry is inserted most-recently-used and least-recently-used
entries are evicted until the total accounted size is within `maxSize`. -/
def LRUCache.set (c : LRUCache V) (k : String) (v : V) : LRUCache V :=
  let sz := c.sizeCalc v k
  let remaining := c.entries.filter (fun e => e.1 != k)
  if c.maxSize < sz then
    { c with entries := remaining }
  else
    { c with entries := (k, v) :: takeWithin (entrySize c.sizeCalc) (c.maxSize - sz) remaining }

/-- Total accounted size of a cache: the sum of `sizeCalculation(value, key)`
over all live entries. -/
def LRUCache.totalSize (c : LRUCache V) : Nat :=
  (c.entries.map (entrySize c.sizeCalc)).sum

/-- Well-formedness: cache keys are unique (an `lru-cache` invariant). -/
def LRUCache.keysNodup (c : LRUCache V) : Prop :=
  (c.entries.map Prod.fst).Nodup

/-- The transpile cache of `src/lib/index.ts:89-94`, initially empty:
`sizeCalculation` is `key.length + value.length`. -/
def transpileCacheInit (maxTranspileCacheSize : Nat) : LRUCache String :=
  { entries := []
    maxSize := maxTranspileCacheSize
    sizeCalc := fun value key => key.length + value.length }

/-- The analysis cache of `src/lib/index.ts:96-101`, initially empty:
`sizeCalculation` is `key.length + JSON.stringify(value).length`, with
`JSON.stringify` (external) abstracted as a serialization parameter. -/
def analyzeCacheInit (maxAnalyzeCacheSize : Nat) (stringify : V → String) : LRUCache V :=
  { entries := []
    maxSize := maxAnalyzeCacheSize
    sizeCalc := fun value key => key.length + (stringify value).length }

/-- `TTranspileResult` of `src/lib/index.ts:24-34`: either `{ error }` or
`{ transpiled }`, mutually exclusive. -/
inductive TTranspileResult where
  | error (e : String)
  | transpiled (s : String)
deriving DecidableEq

/-- `maybeTranspile` of `src/lib/index.ts:104-143`.  The external
`transpileCode` call from `commentscript` is a parameter returning either a
thrown error (`Except.error`) or a result whose `transpiledCode` field may be
absent (`Option`).  The function returns the transpile outcome, the updated
cache, and the number of external transpiler invocations (0 or 1); the outer
`Except` models the `throw Error("BUG: ...")` at line 134. -/
def maybeTranspile (transpileCode : String → Except String (Option String))
    (cache : LRUCache String) (filePath code : String) :
    Except String (TTranspileResult × LRUCache String × Nat) :=
  if strEndsWith filePath ".js" || strEndsWith filePath ".mjs" then
    .ok (.transpiled code, cache, 0)
  else
    let hash := md5 code
    match cache.get hash with
    | (some cached, cache1) => .ok (.transpiled cached, cache1, 0)
    | (none, cache1) =>
      match transpileCode code with
      | .error ex => .ok (.error ex, cache1, 1)
      | .ok none => .error "BUG: transpiled code is undefined"
      | .ok (some t) => .ok (.transpiled t, cache1.set hash t, 1)

/-- Outcome union of the `analyzeCode` callback: `{ result }` or `{ error }`. -/
inductive AnalyzeOutcome (V : Type) where
  | error (e : String)
  | result (r : V)
deriving DecidableEq

/-- `analyzeCode` of `src/lib/index.ts:200-220`.  The external
`defaultCodeAnalyzer` from `es6-debug-server` is a parameter; the function
returns the outcome, the updated analysis cache, and the number of analyzer
invocations (0 or 1). -/
def analyzeCode (defaultCodeAnalyzer : String → Except String V)
    (cache : LRUCache V) (code : String) :
    AnalyzeOutcome V × LRUCache V × Nat :=
  let hash := md5 code
  match cache.get hash with
  | (some cached, cache1) => (.result cached, cache1, 0)
  | (none, cache1) =>
    match defaultCodeAnalyzer code with
    | .error e => (.error e, cache1, 1)
    | .ok r => (.result r, cache1.set hash r, 1)

/-- Outcome union of import resolution: `{ filePath }` or `{ error }` where
the error carries the message of the returned `Error`. -/
inductive ResolveOutcome where
  | error (msg : String)
  | filePath (p : String)
deriving DecidableEq

/-- `defaultResolveImportPath` of `src/lib/index.ts:36-65`.  The externals are
parameters: `resolveImport` from `import-meta-resolve` (throwing modelled as
`Except.error`, carrying the thrown error's message), and `pathToFileURL` /
`fileURLToPath` from `node:url`. -/
def defaultResolveImportPath (resolveImport : String → String → Except String String)
    (pathToFileURL : String → String) (fileURLToPath : String → String)
    (importer specifier : String) : ResolveOutcome :=
  let parentUrl := pathToFileURL importer
  match resolveImport specifier parentUrl with
  | .error e => .error e
  | .ok resolvedUrl =>
    if strStartsWith resolvedUrl "node:" then
      .error ("node imports are not supported, got \"" ++ resolvedUrl ++ "\"")
    else if !(strStartsWith resolvedUrl "file:") then
      .error ("only file imports are supported, got \"" ++ resolvedUrl ++ "\"")
    else
      .filePath (fileURLToPath resolvedUrl)

/-- A Node.js error as delivered to the `readFile` rejection handler at
`src/lib/index.ts:153`: an error `code` (e.g. `"ENOENT"`) and a `message`. -/
structure NodeErr where
  code : String
  message : String
deriving DecidableEq

/-- `ETryReadErrorCode` from `es6-debug-server`: the two read-error codes the
repository uses. -/
inductive ETryReadErrorCode where
  | FILE_NOT_FOUND
  | IO_ERROR
deriving DecidableEq

/-- The `cause` retained inside a wrapped read error: either the original
Node.js read error or the transpile failure. -/
inductive ReadCause where
  | node (e : NodeErr)
  | transpileFailure (e : String)
deriving DecidableEq

/-- The error value built by `createReadError` from `es6-debug-server`
(external): it retains the `code`, `message` and original `cause` verbatim. -/
structure ReadError where
  code : ETryReadErrorCode
  message : String
  cause : ReadCause
deriving DecidableEq

/-- `createReadError({ code, message, cause })`: record constructor, retaining
all three fields. -/
def createReadError (code : ETryReadErrorCode) (message : String) (cause : ReadCause) :
    ReadError :=
  { code := code, message := message, cause := cause }

/-- Outcome union of the `tryReadScriptAsString` callback: `{ content }` or
`{ error }`. -/
inductive ReadOutcome where
  | error (e : ReadError)
  | content (s : String)
deriving DecidableEq

/-- `tryReadScriptAsString` of `src/lib/index.ts:149-197`.  `readFile` from
`node:fs/promises` is a parameter (rejection modelled as `Except.error`
carrying the Node.js error).  Returns the outcome together with the updated
transpile cache; the outer `Except` propagates the `BUG` throw of
`maybeTranspile`. -/
def tryReadScriptAsString (readFile : String → Except NodeErr String)
    (transpileCode : String → Except String (Option String))
    (cache : LRUCache String) (filePath : String) :
    Except String (ReadOutcome × LRUCache String) :=
  match readFile filePath with
  | .error readError =>
    if readError.code == "ENOENT" then
      .ok (.error (createReadError .FILE_NOT_FOUND readError.message (.node readError)), cache)
    else
      .ok (.error (createReadError .IO_ERROR readError.message (.node readError)), cache)
  | .ok content =>
    match maybeTranspile transpileCode cache filePath content with
    | .error bug => .error bug
    | .ok (.error transpileError, cache1, _) =>
      .ok (.error (createReadError .IO_ERROR
            ("failed to transpile code of \"" ++ filePath ++ "\"")
            (.transpileFailure transpileError)), cache1)
    | .ok (.transpiled t, cache1, _) => .ok (.content t, cache1)

/-- An incoming HTTP request as seen by the router middleware: its method and
URL path. -/
structure Req where
  method : String
  url : String
deriving DecidableEq

/-- The three mutually exclusive fates of a request inside the middleware at
`src/lib/index.ts:225-263`: the `throw` for HEAD requests, the script branch
(`server.handleRequest`, the debug core's single entry point), or falling
through to `next()` and the static handler mounted at line 265. -/
inductive RouteOutcome where
  | thrown (msg : String)
  | script
  | staticServe
deriving DecidableEq

/-- The default `fileEndings` configuration of `src/lib/index.ts:70`. -/
def defaultFileEndings : List String := [".js", ".ts"]

/-- The router middleware of `src/lib/index.ts:225-263`: HEAD requests throw;
otherwise the request is a script request iff its URL ends with one of the
configured `fileEndings`, in which case it is handed to the debug core; any
other request falls through to static serving. -/
def routeRequest (fileEndings : List String) (req : Req) : RouteOutcome :=
  if req.method == "HEAD" then
    .thrown "HEAD not supported yet"
  else if fileEndings.any (fun ending => strEndsWith req.url ending) then
    .script
  else
    .staticServe

/-! ## Lemmas about the LRU cache model -/

theorem nat_sum_le_of_sublist {l1 l2 : List Nat} (h : List.Sublist l1 l2) :
    l1.sum ≤ l2.sum := by
  induction h with
  | slnil => exact Nat.le_refl _
  | cons a _ ih => simpa using Nat.le_trans ih (Nat.le_add_left _ _)
  | cons₂ a _ ih => simpa using ih

theorem takeWithin_sum (sz : String × V → Nat) (b : Nat) (l : List (String × V)) :
    ((takeWithin sz b l).map sz).sum ≤ b := by
  induction l generalizing b with
  | nil => simp [takeWithin]
  | cons e rest ih =>
    simp only [takeWithin]
    split
    · rename_i h
      have h2 := ih (b - sz e)
      simp only [List.map_cons, List.sum_cons]
      omega
    · simp

theorem takeWithin_eq_take (sz : String × V → Nat) (b : Nat) (l : List (String × V)) :
    ∃ n, takeWithin sz b l = l.take n := by
  induction l generalizing b with
  | nil => exact ⟨0, rfl⟩
  | cons e rest ih =>
    simp only [takeWithin]
    split
    · obtain ⟨n, hn⟩ := ih (b - sz e)
      exact ⟨n + 1, by simp [hn]⟩
    · exact ⟨0, rfl⟩

theorem takeWithin_sublist (sz : String × V → Nat) (b : Nat) (l : List (String × V)) :
    List.Sublist (takeWithin sz b l) l := by
  obtain ⟨n, hn⟩ := takeWithin_eq_take sz b l
  rw [hn]
  exact List.take_sublist n l

theorem find?_cons_pos {α : Type u} {p : α → Bool} {a : α} {l : List α} (h : p a = true) :
    List.find? p (a :: l) = some a := by
  simp [List.find?_cons, h]

theorem find?_cons_neg {α : Type u} {p : α → Bool} {a : α} {l : List α} (h : p a = false) :
    List.find? p (a :: l) = List.find? p l := by
  simp [List.find?_cons, h]

theorem totalSize_set_le (c : LRUCache V) (k : String) (v : V)
    (hinv : c.totalSize ≤ c.maxSize) :
    (c.set k v).totalSize ≤ c.maxSize := by
  unfold LRUCache.set LRUCache.totalSize
  dsimp only
  split
  · exact le_trans
      (nat_sum_le_of_sublist ((List.filter_sublist c.entries).map (entrySize c.sizeCalc)))
      hinv
  · rename_i h
    simp only [List.map_cons, List.sum_cons]
    have h2 := takeWithin_sum (entrySize c.sizeCalc) (c.maxSize - c.sizeCalc v k)
      (c.entries.filter (fun e => e.1 != k))
    have h3 : entrySize c.sizeCalc (k, v) = c.sizeCalc v k := rfl
    omega

theorem mem_filter_key_ne {l : List (String × V)} {k : String} {x : String × V}
    (hx : x ∈ l.filter (fun e => e.1 != k)) : x.1 ≠ k := by
  have := List.of_mem_filter hx
  simpa [bne] using this

theorem keysNodup_set (c : LRUCache V) (k : String) (v : V)
    (hwf : c.keysNodup) : (c.set k v).keysNodup := by
  unfold LRUCache.set LRUCache.keysNodup
  have hfil : List.Sublist (c.entries.filter (fun e => e.1 != k)) c.entries :=
    List.filter_sublist c.entries
  dsimp only
  split
  · exact hwf.sublist (hfil.map Prod.fst)
  · simp only [List.map_cons, List.nodup_cons]
    constructor
    · intro hk
      obtain ⟨x, hx, hxk⟩ := List.mem_map.mp hk
      have hx2 : x ∈ c.entries.filter (fun e => e.1 != k) :=
        (takeWithin_sublist _ _ _).subset hx
      exact mem_filter_key_ne hx2 hxk
    · exact hwf.sublist (((takeWithin_sublist _ _ _).trans hfil).map Prod.fst)

theorem cons_filter_perm {l : List (String × V)} {k : String} {e : String × V}
    (hnd : (l.map Prod.fst).Nodup) (hfind : l.find? (fun x => x.1 == k) = some e) :
    (e :: l.filter (fun x => x.1 != k)).Perm l := by
  induction l with
  | nil => simp at hfind
  | cons a t ih =>
    simp only [List.map_cons, List.nodup_cons] at hnd
    by_cases ha : (a.1 == k) = true
    · have hstep : List.find? (fun x : String × V => x.1 == k) (a :: t) = some a :=
        find?_cons_pos ha
      rw [hstep] at hfind
      have hak : a.1 = k := beq_iff_eq.mp ha
      have heq : a = e := by injection hfind
      subst heq
      have hfil : List.filter (fun x : String × V => x.1 != k) t = t := by
        apply List.filter_eq_self.mpr
        intro x hx
        have hxk : x.1 ≠ k := by
          intro hxk
          exact hnd.1 (List.mem_map.mpr ⟨x, hx, hxk.trans hak.symm⟩)
        simp [bne, hxk]
      have hfalse : (a.1 != k) = false := by
        simp [bne, ha]
      have hfil2 : List.filter (fun x : String × V => x.1 != k) (a :: t) = t := by
        rw [List.filter_cons, hfalse]
        exact hfil
      rw [hfil2]
    · have hstep : List.find? (fun x : String × V => x.1 == k) (a :: t)
          = List.find? (fun x : String × V => x.1 == k) t :=
        find?_cons_neg (by simpa using ha)
      rw [hstep] at hfind
      have hperm := ih hnd.2 hfind
      have hfil : (a :: t).filter (fun x => x.1 != k) =
          a :: t.filter (fun x => x.1 != k) := by
        simp [List.filter_cons, bne, ha]
      rw [hfil]
      exact ((List.Perm.swap a e _).trans (hperm.cons a))

theorem get_of_find?_none (c : LRUCache V) (k : String)
    (h : c.entries.find? (fun e => e.1 == k) = none) : c.get k = (none, c) := by
  unfold LRUCache.get
  rw [h]

theorem get_of_find?_some (c : LRUCache V) (k : String) (e : String × V)
    (h : c.entries.find? (fun e => e.1 == k) = some e) :
    c.get k = (some e.2, { c with entries := e :: c.entries.filter (fun x => x.1 != k) }) := by
  unfold LRUCache.get
  rw [h]

theorem totalSize_get (c : LRUCache V) (k : String) (hwf : c.keysNodup) :
    ((c.get k).2).totalSize = c.totalSize := by
  cases h : c.entries.find? (fun e => e.1 == k) with
  | none => rw [get_of_find?_none c k h]
  | some e =>
    rw [get_of_find?_some c k e h]
    have hperm := cons_filter_perm hwf h
    unfold LRUCache.totalSize
    exact (hperm.map (entrySize c.sizeCalc)).sum_eq

theorem keysNodup_get (c : LRUCache V) (k : String) (hwf : c.keysNodup) :
    ((c.get k).2).keysNodup := by
  cases h : c.entries.find? (fun e => e.1 == k) with
  | none => rw [get_of_find?_none c k h]; exact hwf
  | some e =>
    rw [get_of_find?_some c k e h]
    have hperm := cons_filter_perm hwf h
    unfold LRUCache.keysNodup
    exact ((hperm.map Prod.fst).nodup_iff).mpr hwf

theorem get_head_of_hit (c : LRUCache V) (k : String) (v : V)
    (h : (c.get k).1 = some v) :
    ((c.get k).2).entries.head? = some (k, v) := by
  cases hf : c.entries.find? (fun e => e.1 == k) with
  | none => rw [get_of_find?_none c k hf] at h; simp at h
  | some e =>
    have hk := List.find?_some hf
    have hk2 : e.1 = k := beq_iff_eq.mp hk
    rw [get_of_find?_some c k e hf] at h ⊢
    simp only [Option.some.injEq] at h
    simp [← hk2, ← h]

theorem get_set_self (c : LRUCache V) (k : String) (v : V)
    (hsz : c.sizeCalc v k ≤ c.maxSize) :
    ∃ c2, (c.set k v).get k = (some v, c2) := by
  have hents : (c.set k v).entries
      = (k, v) :: takeWithin (entrySize c.sizeCalc) (c.maxSize - c.sizeCalc v k)
          (c.entries.filter (fun e => e.1 != k)) := by
    unfold LRUCache.set
    dsimp only
    rw [if_neg (by omega)]
  have hfind : (c.set k v).entries.find? (fun e => e.1 == k) = some (k, v) := by
    rw [hents]
    exact find?_cons_pos (by simp)
  exact ⟨_, get_of_find?_some _ k (k, v) hfind⟩

theorem get_again_of_hit (c : LRUCache V) (k : String) (v : V) (c1 : LRUCache V)
    (h : c.get k = (some v, c1)) : ∃ c2, c1.get k = (some v, c2) := by
  cases hf : c.entries.find? (fun e => e.1 == k) with
  | none => rw [get_of_find?_none c k hf] at h; simp at h
  | some e =>
    have hk := List.find?_some hf
    rw [get_of_find?_some c k e hf] at h
    simp only [Prod.mk.injEq, Option.some.injEq] at h
    obtain ⟨hv, hc⟩ := h
    have hfind : c1.entries.find? (fun x => x.1 == k) = some e := by
      rw [← hc]
      exact find?_cons_pos hk
    have hres := get_of_find?_some c1 k e hfind
    rw [hv] at hres
    exact ⟨_, hres⟩

/-! ## Branch lemmas for `maybeTranspile` and `analyzeCode` -/

theorem maybeTranspile_native (tr : String → Except String (Option String))
    (cache : LRUCache String) (filePath code : String)
    (hp : (strEndsWith filePath ".js" || strEndsWith filePath ".mjs") = true) :
    maybeTranspile tr cache filePath code = .ok (.transpiled code, cache, 0) := by
  unfold maybeTranspile
  rw [hp]
  rfl

theorem maybeTranspile_hit (tr : String → Except String (Option String))
    (cache : LRUCache String) (filePath code : String) (v : String) (c1 : LRUCache String)
    (hp : (strEndsWith filePath ".js" || strEndsWith filePath ".mjs") = false)
    (hget : cache.get (md5 code) = (some v, c1)) :
    maybeTranspile tr cache filePath code = .ok (.transpiled v, c1, 0) := by
  unfold maybeTranspile
  rw [hp]
  dsimp only
  rw [hget]
  rfl

theorem maybeTranspile_miss_error (tr : String → Except String (Option String))
    (cache : LRUCache String) (filePath code : String) (c1 : LRUCache String) (ex : String)
    (hp : (strEndsWith filePath ".js" || strEndsWith filePath ".mjs") = false)
    (hget : cache.get (md5 code) = (none, c1))
    (htr : tr code = .error ex) :
    maybeTranspile tr cache filePath code = .ok (.error ex, c1, 1) := by
  unfold maybeTranspile
  rw [hp]
  dsimp only
  rw [hget, htr]
  rfl

theorem maybeTranspile_miss_undef (tr : String → Except String (Option String))
    (cache : LRUCache String) (filePath code : String) (c1 : LRUCache String)
    (hp : (strEndsWith filePath ".js" || strEndsWith filePath ".mjs") = false)
    (hget : cache.get (md5 code) = (none, c1))
    (htr : tr code = .ok none) :
    maybeTranspile tr cache filePath code = .error "BUG: transpiled code is undefined" := by
  unfold maybeTranspile
  rw [hp]
  dsimp only
  rw [hget, htr]
  rfl

theorem maybeTranspile_miss_ok (tr : String → Except String (Option String))
    (cache : LRUCache String) (filePath code : String) (c1 : LRUCache String) (t : String)
    (hp : (strEndsWith filePath ".js" || strEndsWith filePath ".mjs") = false)
    (hget : cache.get (md5 code) = (none, c1))
    (htr : tr code = .ok (some t)) :
    maybeTranspile tr cache filePath code = .ok (.transpiled t, c1.set (md5 code) t, 1) := by
  unfold maybeTranspile
  rw [hp]
  dsimp only
  rw [hget, htr]
  rfl

theorem analyzeCode_hit (analyzer : String → Except String V)
    (cache : LRUCache V) (code : String) (r : V) (c1 : LRUCache V)
    (hget : cache.get (md5 code) = (some r, c1)) :
    analyzeCode analyzer cache code = (.result r, c1, 0) := by
  unfold analyzeCode
  dsimp only
  rw [hget]

theorem analyzeCode_miss_error (analyzer : String → Except String V)
    (cache : LRUCache V) (code : String) (c1 : LRUCache V) (e : String)
    (hget : cache.get (md5 code) = (none, c1))
    (hana : analyzer code = .error e) :
    analyzeCode analyzer cache code = (.error e, c1, 1) := by
  unfold analyzeCode
  dsimp only
  rw [hget, hana]

theorem analyzeCode_miss_ok (analyzer : String → Except String V)
    (cache : LRUCache V) (code : String) (c1 : LRUCache V) (r : V)
    (hget : cache.get (md5 code) = (none, c1))
    (hana : analyzer code = .ok r) :
    analyzeCode analyzer cache code = (.result r, c1.set (md5 code) r, 1) := by
  unfold analyzeCode
  dsimp only
  rw [hget, hana]

/-! ## Claim theorems -/

theorem get_eq_of_fst_none (c : LRUCache V) (k : String) (h : (c.get k).1 = none) :
    c.get k = (none, c) := by
  cases hf : c.entries.find? (fun e => e.1 == k) with
  | none => exact get_of_find?_none c k hf
  | some e => rw [get_of_find?_some c k e hf] at h; simp at h

/-- C2: for every code string and every filePath ending in `.js` or `.mjs`,
`maybeTranspile` returns `{ transpiled: code }` unchanged, with the transpile
cache untouched (the returned cache is the input cache) and zero invocations
of the external transpiler (so no hash is computed and no cache lookup
happens). -/
theorem native_extension_pass_through (tr : String → Except String (Option String))
    (cache : LRUCache String) (filePath code : String)
    (hp : (strEndsWith filePath ".js" || strEndsWith filePath ".mjs") = true) :
    maybeTranspile tr cache filePath code = .ok (.transpiled code, cache, 0) :=
  maybeTranspile_native tr cache filePath code hp

/-- Witness for C2 at a concrete input: a `.js` path passes through even when
the external transpiler would fail. -/
theorem native_extension_pass_through_witness :
    maybeTranspile (fun _ => .error "boom") (transpileCacheInit 8) "/a.js" "code"
      = .ok (.transpiled "code", transpileCacheInit 8, 0) :=
  native_extension_pass_through (fun _ => .error "boom") (transpileCacheInit 8)
    "/a.js" "code" (by decide)

/-- C3: if the external transpiler fails for content `code` (a cache miss, so
the transpiler is actually consulted), `maybeTranspile` returns `{ error }`
and the returned transpile cache is the input cache unchanged — so a
subsequent call with the same content is the very same computation and
re-invokes the transpiler (invocation count 1 again); likewise a failing
analyzer leaves the analysis cache unchanged. -/
theorem failures_never_cached (tr : String → Except String (Option String))
    (analyzer : String → Except String V)
    (ct : LRUCache String) (ca : LRUCache V)
    (filePath code ex ea : String)
    (hp : (strEndsWith filePath ".js" || strEndsWith filePath ".mjs") = false)
    (hmiss : (ct.get (md5 code)).1 = none)
    (htr : tr code = .error ex)
    (hmissA : (ca.get (md5 code)).1 = none)
    (hana : analyzer code = .error ea) :
    maybeTranspile tr ct filePath code = .ok (.error ex, ct, 1) ∧
    analyzeCode analyzer ca code = (.error ea, ca, 1) :=
  ⟨maybeTranspile_miss_error tr ct filePath code ct ex hp
      (get_eq_of_fst_none ct (md5 code) hmiss) htr,
    analyzeCode_miss_error analyzer ca code ca ea
      (get_eq_of_fst_none ca (md5 code) hmissA) hana⟩

/-- Witness for C3 at a concrete input: a failing transpiler and a failing analyzer. -/
theorem failures_never_cached_witness :
    maybeTranspile (fun _ => .error "tfail") (transpileCacheInit 64) "/a.ts" "x"
        = .ok (.error "tfail", transpileCacheInit 64, 1) ∧
      analyzeCode (fun _ => (.error "afail" : Except String String))
          (analyzeCacheInit 64 (fun v => v)) "x"
        = (.error "afail", analyzeCacheInit 64 (fun v => v), 1) :=
  failures_never_cached (fun _ => .error "tfail")
    (fun _ => (.error "afail" : Except String String))
    (transpileCacheInit 64) (analyzeCacheInit 64 (fun v => v))
    "/a.ts" "x" "tfail" "afail" (by decide) (by decide) rfl (by decide) rfl

/-- C8: if the external transpiler returns without throwing but its
`transpiledCode` is undefined, `maybeTranspile` does not produce a
recoverable `{ error }` outcome and writes nothing to the cache: the whole
call throws the fatal internal-invariant-violation error of
`src/lib/index.ts:134`. -/
theorem undefined_transpile_result_fatal (tr : String → Except String (Option String))
    (ct : LRUCache String) (filePath code : String)
    (hp : (strEndsWith filePath ".js" || strEndsWith filePath ".mjs") = false)
    (hmiss : (ct.get (md5 code)).1 = none)
    (htr : tr code = .ok none) :
    maybeTranspile tr ct filePath code = .error "BUG: transpiled code is undefined" :=
  maybeTranspile_miss_undef tr ct filePath code ct hp
    (get_eq_of_fst_none ct (md5 code) hmiss) htr

/-- Witness for C8 at a concrete input. -/
theorem undefined_transpile_result_fatal_witness :
    maybeTranspile (fun _ => .ok none) (transpileCacheInit 64) "/a.ts" "x"
      = .error "BUG: transpiled code is undefined" :=
  undefined_transpile_result_fatal (fun _ => .ok none) (transpileCacheInit 64)
    "/a.ts" "x" (by decide) (by decide) rfl

/-- C4: trichotomy of `defaultResolveImportPath`.  If the underlying
resolution algorithm throws, that error is surfaced verbatim as `{ error }`;
if resolution succeeds but the resolved URL uses the built-in/virtual
`node:` scheme or any other non-`file:` scheme, an unsupported-scheme error
is returned (the two messages of `src/lib/index.ts:50,56`); if the resolved
URL is a `file:` location, `{ filePath }` is returned with the conversion of
the URL to a filesystem path. -/
theorem defaultResolveImportPath_policy
    (resolveImport : String → String → Except String String)
    (pathToFileURL fileURLToPath : String → String)
    (importer specifier : String) :
    (∀ e, resolveImport specifier (pathToFileURL importer) = .error e →
      defaultResolveImportPath resolveImport pathToFileURL fileURLToPath importer specifier
        = .error e) ∧
    (∀ url, resolveImport specifier (pathToFileURL importer) = .ok url →
      strStartsWith url "node:" = true →
      defaultResolveImportPath resolveImport pathToFileURL fileURLToPath importer specifier
        = .error ("node imports are not supported, got \"" ++ url ++ "\"")) ∧
    (∀ url, resolveImport specifier (pathToFileURL importer) = .ok url →
      strStartsWith url "node:" = false → strStartsWith url "file:" = false →
      defaultResolveImportPath resolveImport pathToFileURL fileURLToPath importer specifier
        = .error ("only file imports are supported, got \"" ++ url ++ "\"")) ∧
    (∀ url, resolveImport specifier (pathToFileURL importer) = .ok url →
      strStartsWith url "node:" = false → strStartsWith url "file:" = true →
      defaultResolveImportPath resolveImport pathToFileURL fileURLToPath importer specifier
        = .filePath (fileURLToPath url)) := by
  refine ⟨?_, ?_, ?_, ?_⟩
  · intro e hres
    unfold defaultResolveImportPath
    dsimp only
    rw [hres]
  · intro url hres hnode
    unfold defaultResolveImportPath
    dsimp only
    rw [hres]
    dsimp only
    rw [hnode]
    rfl
  · intro url hres hnode hfile
    unfold defaultResolveImportPath
    dsimp only
    rw [hres]
    dsimp only
    rw [hnode, hfile]
    rfl
  · intro url hres hnode hfile
    unfold defaultResolveImportPath
    dsimp only
    rw [hres]
    dsimp only
    rw [hnode, hfile]
    rfl

/-- Witness for C4: the three outcomes at concrete inputs — a thrown
resolution error surfaced verbatim, a `node:` built-in rejected, a non-file
`https:` URL rejected, and a `file:` URL converted to a path. -/
theorem defaultResolveImportPath_policy_witness :
    defaultResolveImportPath (fun _ _ => .error "not found") (fun u => u) (fun u => u)
        "/root/a.ts" "missing" = .error "not found" ∧
    defaultResolveImportPath (fun _ _ => .ok "node:fs") (fun u => u) (fun u => u)
        "/root/a.ts" "fs" = .error "node imports are not supported, got \"node:fs\"" ∧
    defaultResolveImportPath (fun _ _ => .ok "https://x") (fun u => u) (fun u => u)
        "/root/a.ts" "x" = .error "only file imports are supported, got \"https://x\"" ∧
    defaultResolveImportPath (fun _ _ => .ok "file:///b.ts") (fun u => u) (fun u => u)
        "/root/a.ts" "./b.ts" = .filePath "file:///b.ts" :=
  ⟨(defaultResolveImportPath_policy (fun _ _ => .error "not found") (fun u => u) (fun u => u)
      "/root/a.ts" "missing").1 "not found" rfl,
    (defaultResolveImportPath_policy (fun _ _ => .ok "node:fs") (fun u => u) (fun u => u)
      "/root/a.ts" "fs").2.1 "node:fs" rfl (by decide),
    (defaultResolveImportPath_policy (fun _ _ => .ok "https://x") (fun u => u) (fun u => u)
      "/root/a.ts" "x").2.2.1 "https://x" rfl (by decide) (by decide),
    (defaultResolveImportPath_policy (fun _ _ => .ok "file:///b.ts") (fun u => u) (fun u => u)
      "/root/a.ts" "./b.ts").2.2.2 "file:///b.ts" rfl (by decide) (by decide)⟩

/-- C5: error taxonomy of `tryReadScriptAsString`.  A missing-file read
failure (code `ENOENT`) maps to a `FILE_NOT_FOUND` error; every other read
failure maps to `IO_ERROR` with the original Node.js error retained as
cause; every transpile failure also maps to `IO_ERROR`, retaining the
transpile error as cause — so read and transpile failures share the single
code `IO_ERROR` at this boundary while `FILE_NOT_FOUND` stays distinct. -/
theorem tryReadScriptAsString_error_taxonomy
    (readFile : String → Except NodeErr String)
    (tr : String → Except String (Option String))
    (cache : LRUCache String) (filePath : String) :
    (∀ err, readFile filePath = .error err → err.code = "ENOENT" →
      tryReadScriptAsString readFile tr cache filePath
        = .ok (.error (createReadError .FILE_NOT_FOUND err.message (.node err)), cache)) ∧
    (∀ err, readFile filePath = .error err → err.code ≠ "ENOENT" →
      tryReadScriptAsString readFile tr cache filePath
        = .ok (.error (createReadError .IO_ERROR err.message (.node err)), cache)) ∧
    (∀ content te c1 n, readFile filePath = .ok content →
      maybeTranspile tr cache filePath content = .ok (.error te, c1, n) →
      tryReadScriptAsString readFile tr cache filePath
        = .ok (.error (createReadError .IO_ERROR
            ("failed to transpile code of \"" ++ filePath ++ "\"")
            (.transpileFailure te)), c1)) := by
  refine ⟨?_, ?_, ?_⟩
  · intro err hread hcode
    unfold tryReadScriptAsString
    rw [hread]
    dsimp only
    rw [beq_iff_eq.mpr hcode |> if_pos]
  · intro err hread hcode
    unfold tryReadScriptAsString
    rw [hread]
    dsimp only
    rw [if_neg (by simp [hcode])]
  · intro content te c1 n hread htrans
    unfold tryReadScriptAsString
    rw [hread]
    dsimp only
    rw [htrans]

/-- Witness for C5: the three error mappings at concrete inputs. -/
theorem tryReadScriptAsString_error_taxonomy_witness :
    tryReadScriptAsString (fun _ => .error { code := "ENOENT", message := "gone" })
        (fun _ => .ok (some "T")) (transpileCacheInit 64) "/a.ts"
      = .ok (.error (createReadError .FILE_NOT_FOUND "gone"
          (.node { code := "ENOENT", message := "gone" })), transpileCacheInit 64) ∧
    tryReadScriptAsString (fun _ => .error { code := "EACCES", message := "denied" })
        (fun _ => .ok (some "T")) (transpileCacheInit 64) "/a.ts"
      = .ok (.error (createReadError .IO_ERROR "denied"
          (.node { code := "EACCES", message := "denied" })), transpileCacheInit 64) ∧
    tryReadScriptAsString (fun _ => .ok "x") (fun _ => .error "tfail")
        (transpileCacheInit 64) "/a.ts"
      = .ok (.error (createReadError .IO_ERROR "failed to transpile code of \"/a.ts\""
          (.transpileFailure "tfail")), transpileCacheInit 64) :=
  ⟨(tryReadScriptAsString_error_taxonomy
      (fun _ => .error { code := "ENOENT", message := "gone" })
      (fun _ => .ok (some "T")) (transpileCacheInit 64) "/a.ts").1
      { code := "ENOENT", message := "gone" } rfl rfl,
    (tryReadScriptAsString_error_taxonomy
      (fun _ => .error { code := "EACCES", message := "denied" })
      (fun _ => .ok (some "T")) (transpileCacheInit 64) "/a.ts").2.1
      { code := "EACCES", message := "denied" } rfl (by decide),
    (tryReadScriptAsString_error_taxonomy (fun _ => .ok "x") (fun _ => .error "tfail")
      (transpileCacheInit 64) "/a.ts").2.2 "x" "tfail" (transpileCacheInit 64) 1 rfl
      (maybeTranspile_miss_error (fun _ => .error "tfail") (transpileCacheInit 64)
        "/a.ts" "x" (transpileCacheInit 64) "tfail" (by decide) rfl rfl)⟩

/-- C9 counterexample: the claim "a request is classified as a script request
iff its URL path ends with one of the configured fileEndings, and every
non-script request falls through to static serving" fails as stated: the
concrete request `HEAD /app.ts` has a URL ending in the default `.ts` ending
yet is not handed to script handling (the middleware throws first), and the
concrete request `HEAD /styles.css` is a non-script request that does not
fall through to static serving. -/
theorem script_classification_counterexample :
    (defaultFileEndings.any (fun ending => strEndsWith "/app.ts" ending) = true ∧
      routeRequest defaultFileEndings { method := "HEAD", url := "/app.ts" }
        ≠ .script) ∧
    (defaultFileEndings.any (fun ending => strEndsWith "/styles.css" ending) = false ∧
      routeRequest defaultFileEndings { method := "HEAD", url := "/styles.css" }
        ≠ .staticServe) := by
  decide

/-- C9 amended: for every request whose method is not HEAD, the request is
classified as a script request (handed to the debug core's single entry
point) iff its URL path ends with one of the configured fileEndings, and it
falls through to static asset serving iff it does not. -/
theorem script_classification_amended (fileEndings : List String) (req : Req)
    (hm : req.method ≠ "HEAD") :
    (routeRequest fileEndings req = .script ↔
      fileEndings.any (fun ending => strEndsWith req.url ending) = true) ∧
    (routeRequest fileEndings req = .staticServe ↔
      fileEndings.any (fun ending => strEndsWith req.url ending) = false) := by
  have hm2 : (req.method == "HEAD") = false := by
    simp [hm]
  unfold routeRequest
  rw [hm2]
  cases hc : fileEndings.any (fun ending => strEndsWith req.url ending) <;> simp

/-- Witness for the amended C9: a GET request for a `.ts` path is a script
request; a GET request for a `.css` path falls through to static serving. -/
theorem script_classification_amended_witness :
    ((routeRequest defaultFileEndings { method := "GET", url := "/app.ts" } = .script ↔
      defaultFileEndings.any (fun ending => strEndsWith "/app.ts" ending) = true) ∧
    (routeRequest defaultFileEndings { method := "GET", url := "/app.ts" } = .staticServe ↔
      defaultFileEndings.any (fun ending => strEndsWith "/app.ts" ending) = false)) ∧
    ((routeRequest defaultFileEndings { method := "GET", url := "/styles.css" } = .script ↔
      defaultFileEndings.any (fun ending => strEndsWith "/styles.css" ending) = true) ∧
    (routeRequest defaultFileEndings { method := "GET", url := "/styles.css" } = .staticServe ↔
      defaultFileEndings.any (fun ending => strEndsWith "/styles.css" ending) = false)) :=
  ⟨script_classification_amended defaultFileEndings
      { method := "GET", url := "/app.ts" } (by decide),
    script_classification_amended defaultFileEndings
      { method := "GET", url := "/styles.css" } (by decide)⟩

/-- C10: every request whose method is HEAD makes the router middleware throw
before classification — regardless of whether the URL is a script path or a
static-asset path, so HEAD requests never reach script handling nor static
serving. -/
theorem head_requests_throw (fileEndings : List String) (req : Req)
    (hm : req.method = "HEAD") :
    routeRequest fileEndings req = .thrown "HEAD not supported yet" := by
  unfold routeRequest
  rw [if_pos (beq_iff_eq.mpr hm)]

/-- Witness for C10: a HEAD request for a static asset path throws, and so
does a HEAD request for a script path. -/
theorem head_requests_throw_witness :
    routeRequest defaultFileEndings { method := "HEAD", url := "/styles.css" }
        = .thrown "HEAD not supported yet" ∧
    routeRequest defaultFileEndings { method := "HEAD", url := "/app.ts" }
        = .thrown "HEAD not supported yet" :=
  ⟨head_requests_throw defaultFileEndings { method := "HEAD", url := "/styles.css" } rfl,
    head_requests_throw defaultFileEndings { method := "HEAD", url := "/app.ts" } rfl⟩

/-- C1: cache correctness of `maybeTranspile`.  For content whose path is not
native (`.js`/`.mjs`), if a call returns a transpiled string (the success the
claim presupposes by speaking of "the first call's result") and the stored
entry fits the byte budget (the claim's "no intervening eviction"), then the
transpiler was invoked at most once, and a second call in sequence returns
the same transpiled string with zero further transpiler invocations. -/
theorem transpile_cache_correctness (tr : String → Except String (Option String))
    (cache : LRUCache String) (filePath code t1 : String)
    (hp : (strEndsWith filePath ".js" || strEndsWith filePath ".mjs") = false)
    (h1 : ∃ c1 n1, maybeTranspile tr cache filePath code = .ok (.transpiled t1, c1, n1))
    (hfit : cache.sizeCalc t1 (md5 code) ≤ cache.maxSize) :
    ∃ c1 n1, maybeTranspile tr cache filePath code = .ok (.transpiled t1, c1, n1) ∧
      n1 ≤ 1 ∧
      ∃ c2, maybeTranspile tr c1 filePath code = .ok (.transpiled t1, c2, 0) := by
  obtain ⟨c1, n1, h1⟩ := h1
  cases hf : cache.entries.find? (fun e => e.1 == md5 code) with
  | some e =>
    have hget := get_of_find?_some cache (md5 code) e hf
    have hres := maybeTranspile_hit tr cache filePath code e.2 _ hp hget
    rw [h1] at hres
    simp only [Except.ok.injEq, Prod.mk.injEq, TTranspileResult.transpiled.injEq] at hres
    obtain ⟨ht, hc, hn⟩ := hres
    rw [← ht, ← hc] at hget
    obtain ⟨c2, h2⟩ := get_again_of_hit cache (md5 code) t1 c1 hget
    exact ⟨c1, n1, h1, by omega,
      ⟨c2, maybeTranspile_hit tr c1 filePath code t1 c2 hp h2⟩⟩
  | none =>
    have hget := get_of_find?_none cache (md5 code) hf
    cases htr : tr code with
    | error ex =>
      have hres := maybeTranspile_miss_error tr cache filePath code cache ex hp hget htr
      rw [h1] at hres
      simp at hres
    | ok oT =>
      cases oT with
      | none =>
        have hres := maybeTranspile_miss_undef tr cache filePath code cache hp hget htr
        rw [h1] at hres
        simp at hres
      | some t =>
        have hres := maybeTranspile_miss_ok tr cache filePath code cache t hp hget htr
        rw [h1] at hres
        simp only [Except.ok.injEq, Prod.mk.injEq, TTranspileResult.transpiled.injEq] at hres
        obtain ⟨ht, hc, hn⟩ := hres
        have hfit2 : cache.sizeCalc t (md5 code) ≤ cache.maxSize := by rw [← ht]; exact hfit
        obtain ⟨c2, hgs⟩ := get_set_self cache (md5 code) t hfit2
        rw [← hc] at hgs
        have hsecond := maybeTranspile_hit tr c1 filePath code t c2 hp hgs
        rw [← ht] at hsecond
        exact ⟨c1, n1, h1, by omega, ⟨c2, hsecond⟩⟩

/-- Witness for C1 at a concrete input: transpiling `"x"` twice through an
instrumented transpiler from the empty transpile cache. -/
theorem transpile_cache_correctness_witness :
    ∃ c1 n1, maybeTranspile (fun _ => Except.ok (some "T")) (transpileCacheInit 100)
        "/a.ts" "x" = .ok (.transpiled "T", c1, n1) ∧
      n1 ≤ 1 ∧
      ∃ c2, maybeTranspile (fun _ => Except.ok (some "T")) c1 "/a.ts" "x"
        = .ok (.transpiled "T", c2, 0) :=
  transpile_cache_correctness (fun _ => Except.ok (some "T")) (transpileCacheInit 100)
    "/a.ts" "x" "T" (by decide)
    ⟨(transpileCacheInit 100).set (md5 "x") "T", 1, by rfl⟩
    (by decide)

/-- C7: content-addressing of the transpile cache.  From the empty transpile
cache, transpiling two different non-native file paths with byte-identical
content produces a single shared cache entry keyed by the digest of the
content alone (the path plays no role in the key), and the external
transpiler is invoked exactly once across both calls. -/
theorem transpile_cache_content_addressed
    (tr : String → Except String (Option String)) (maxSz : Nat)
    (path1 path2 code t : String)
    (hp1 : (strEndsWith path1 ".js" || strEndsWith path1 ".mjs") = false)
    (hp2 : (strEndsWith path2 ".js" || strEndsWith path2 ".mjs") = false)
    (htr : tr code = .ok (some t))
    (hfit : (md5 code).length + t.length ≤ maxSz) :
    ∃ c1, maybeTranspile tr (transpileCacheInit maxSz) path1 code
        = .ok (.transpiled t, c1, 1) ∧
      c1.entries = [(md5 code, t)] ∧
      ∃ c2, maybeTranspile tr c1 path2 code = .ok (.transpiled t, c2, 0) ∧
        c2.entries = [(md5 code, t)] := by
  have hget0 : (transpileCacheInit maxSz).get (md5 code) = (none, transpileCacheInit maxSz) :=
    get_of_find?_none _ (md5 code) rfl
  have h1 := maybeTranspile_miss_ok tr (transpileCacheInit maxSz) path1 code
    (transpileCacheInit maxSz) t hp1 hget0 htr
  have hsz : (transpileCacheInit maxSz).sizeCalc t (md5 code)
      ≤ (transpileCacheInit maxSz).maxSize := hfit
  have hents : ((transpileCacheInit maxSz).set (md5 code) t).entries = [(md5 code, t)] := by
    unfold LRUCache.set
    dsimp only
    rw [if_neg (by omega)]
    rfl
  have hfind : ((transpileCacheInit maxSz).set (md5 code) t).entries.find?
      (fun e => e.1 == md5 code) = some (md5 code, t) := by
    rw [hents]
    exact find?_cons_pos (by simp)
  have hget2 := get_of_find?_some _ (md5 code) (md5 code, t) hfind
  have h2 := maybeTranspile_hit tr ((transpileCacheInit maxSz).set (md5 code) t)
    path2 code t _ hp2 hget2
  refine ⟨(transpileCacheInit maxSz).set (md5 code) t, h1, hents, _, h2, ?_⟩
  have hfilter : (((transpileCacheInit maxSz).set (md5 code) t).entries.filter
      (fun x => x.1 != md5 code)) = [] := by
    rw [hents]
    simp
  simp [hfilter]

/-- Witness for C7 at a concrete input: two distinct `.ts` paths with the
same content `"x"` share one cache entry and one transpiler invocation. -/
theorem transpile_cache_content_addressed_witness :
    ∃ c1, maybeTranspile (fun _ => Except.ok (some "T")) (transpileCacheInit 100)
        "/a.ts" "x" = .ok (.transpiled "T", c1, 1) ∧
      c1.entries = [(md5 "x", "T")] ∧
      ∃ c2, maybeTranspile (fun _ => Except.ok (some "T")) c1 "/b.ts" "x"
        = .ok (.transpiled "T", c2, 0) ∧ c2.entries = [(md5 "x", "T")] :=
  transpile_cache_content_addressed (fun _ => Except.ok (some "T")) 100
    "/a.ts" "/b.ts" "x" "T" (by decide) (by decide) rfl (by decide)

/-- C6: byte-budget invariant of the LRU caches.  For any cache state with
unique keys whose total accounted size (the `sizeCalculation` of
`src/lib/index.ts:91-100`: key length plus value size estimate, summed over
all entries) is within `maxSize`: a `set` keeps the total within `maxSize`,
a `get` leaves the total unchanged (hence within `maxSize`), a `get` hit
promotes the entry to most-recently-used (the head of the recency list), and
a fitting `set` inserts its entry most-recently-used while the survivors of
eviction are a prefix of the remaining recency list — i.e. eviction removes
least-recently-used entries first, so the most recently accessed entry is
never evicted while older unaccessed entries remain. -/
theorem lru_cache_byte_budget (c : LRUCache V) (k : String) (v : V)
    (hwf : c.keysNodup) (hinv : c.totalSize ≤ c.maxSize) :
    (c.set k v).totalSize ≤ c.maxSize ∧
    ((c.get k).2).totalSize = c.totalSize ∧
    ((c.get k).2).totalSize ≤ c.maxSize ∧
    (∀ v', (c.get k).1 = some v' → ((c.get k).2).entries.head? = some (k, v')) ∧
    (c.sizeCalc v k ≤ c.maxSize →
      ∃ n, (c.set k v).entries
        = (k, v) :: (c.entries.filter (fun e => e.1 != k)).take n) := by
  have hgeq := totalSize_get c k hwf
  refine ⟨totalSize_set_le c k v hinv, hgeq, by rw [hgeq]; exact hinv,
    fun v' h => get_head_of_hit c k v' h, fun hsz => ?_⟩
  have hents : (c.set k v).entries
      = (k, v) :: takeWithin (entrySize c.sizeCalc) (c.maxSize - c.sizeCalc v k)
          (c.entries.filter (fun e => e.1 != k)) := by
    unfold LRUCache.set
    dsimp only
    rw [if_neg (by omega)]
  obtain ⟨n, hn⟩ := takeWithin_eq_take (entrySize c.sizeCalc)
    (c.maxSize - c.sizeCalc v k) (c.entries.filter (fun e => e.1 != k))
  exact ⟨n, by rw [hents, hn]⟩

/-- A small concrete cache state used by the C6 witness: one entry, the
transpile cache's size calculation, budget 10. -/
def sampleCache : LRUCache String :=
  { entries := [("a", "bb")]
    maxSize := 10
    sizeCalc := fun value key => key.length + value.length }

/-- Witness for C6 at a concrete cache state. -/
theorem lru_cache_byte_budget_witness :
    (sampleCache.set "k" "vv").totalSize ≤ sampleCache.maxSize ∧
    ((sampleCache.get "k").2).totalSize = sampleCache.totalSize ∧
    ((sampleCache.get "k").2).totalSize ≤ sampleCache.maxSize ∧
    (∀ v', (sampleCache.get "k").1 = some v' →
      ((sampleCache.get "k").2).entries.head? = some ("k", v')) ∧
    (sampleCache.sizeCalc "vv" "k" ≤ sampleCache.maxSize →
      ∃ n, (sampleCache.set "k" "vv").entries
        = ("k", "vv") :: (sampleCache.entries.filter (fun e => e.1 != "k")).take n) :=
  lru_cache_byte_budget sampleCache "k" "vv"
    (show (sampleCache.entries.map Prod.fst).Nodup by decide) (by decide)

end Wurzel
